import Mathlib

/-!
Shallow embedding of the meeting-crawler scripts (src/index.js and the
unnamed legacy script src/unnamed/part_000) together with proofs about the
behaviour described by the specification.  Effectful parts (file system,
clock, sockets, browser pages) are modelled as explicit environment
parameters; every definition mirrors the corresponding JavaScript function
and is annotated with its source location.  Loops whose guard compares
Date.now() against a deadline are written as structural recursion over a
fuel argument that strictly exceeds the number of iterations the deadline
permits (every iteration advances the clock by at least 1000 ms), so the
fuel-exhaustion branch is unreachable and agrees with the deadline branch.
-/

namespace MeetingCrawler

/-- Outcome of one bind probe inside checkPort (src/index.js lines 67-80):
the listen attempt either succeeds (the server emits 'listening'), fails
with code EADDRINUSE, or fails with any other error code. -/
inductive BindOutcome where
  | listening
  | errAddrInUse
  | errOther
deriving DecidableEq

namespace Crawler

/-- checkPort (src/index.js lines 67-80): resolves false only for
EADDRINUSE; the 'listening' handler closes the server and resolves true;
any other error also resolves true. -/
def checkPort : BindOutcome → Bool
  | .listening => true
  | .errAddrInUse => false
  | .errOther => true

/-- Whether a probe leaves a listening socket bound once checkPort has
resolved: in the 'listening' branch server.close() runs before
resolve(true), and in both error branches no socket was ever bound. -/
def portStillBound : BindOutcome → Bool
  | .listening => false
  | .errAddrInUse => false
  | .errOther => false

/-- Loop body of findFreePort (src/index.js lines 52-65): probe up to n
consecutive ports starting at port, returning the first one whose probe
reports it available. -/
def findFreePortLoop (probe : Nat → BindOutcome) : Nat → Nat → Option Nat
  | _, 0 => none
  | port, n + 1 =>
    if checkPort (probe port) = true then some port
    else findFreePortLoop probe (port + 1) n

/-- findFreePort (src/index.js lines 52-65): maxAttempts = 100; throwing
the no-free-port error is modelled as none. -/
def findFreePort (probe : Nat → BindOutcome) (startPort : Nat) : Option Nat :=
  findFreePortLoop probe startPort 100

/-- Check whether the character list s starts with the pattern pat
(character-wise). -/
def strStarts : List Char → List Char → Bool
  | [], _ => true
  | _ :: _, [] => false
  | p :: ps, c :: cs => p == c && strStarts ps cs

/-- JavaScript String.prototype.startsWith on the character lists of the
strings. -/
def jsStartsWith (s pre : String) : Bool :=
  strStarts pre.data s.data

/-- JavaScript String.prototype.endsWith: s ends with suf exactly when
the reversed s starts with the reversed suf. -/
def jsEndsWith (s suf : String) : Bool :=
  strStarts suf.data.reverse s.data.reverse

/-- ASCII uppercase of one character, as toUpperCase acts on the
identifiers WORD/PDF used by the configuration. -/
def upChar (c : Char) : Char :=
  if 'a' ≤ c ∧ c ≤ 'z' then Char.ofNat (c.toNat - 32) else c

/-- JavaScript String.prototype.toUpperCase on ASCII strings. -/
def jsToUpper (s : String) : String :=
  ⟨s.data.map upChar⟩

/-- Occurrence test: does pat occur as a contiguous block anywhere in s? -/
def hasOccL (pat : List Char) : List Char → Bool
  | [] => decide (pat = [])
  | c :: cs => strStarts pat (c :: cs) || hasOccL pat cs

/-- String-level wrapper of hasOccL. -/
def hasOcc (pat s : String) : Bool :=
  hasOccL pat.data s.data

/-- readUrlFile (src/index.js lines 82-96).  The INI parsing is an
excluded external collaborator, so the input is the value of
parsed.InternetShortcut.URL: none models an absent field (or a parse
error caught by the catch block), some s a present string field.  The
source returns null when the field is falsy (empty string) or does not
start with 'http'. -/
def readUrlFile : Option String → Option String
  | none => none
  | some url =>
    if url = "" ∨ jsStartsWith url "http" = false then none else some url

/-- JavaScript String.prototype.replace with a plain-string pattern
(as used at src/index.js line 386): replaces only the first occurrence
of pat in s by rep. -/
def jsReplaceFirstL (pat rep : List Char) : List Char → List Char
  | [] => if pat = [] then rep else []
  | c :: cs =>
    if strStarts pat (c :: cs) = true then rep ++ (c :: cs).drop pat.length
    else c :: jsReplaceFirstL pat rep cs

/-- String-level wrapper of jsReplaceFirstL. -/
def jsReplaceFirst (s pat rep : String) : String :=
  ⟨jsReplaceFirstL pat.data rep.data s.data⟩

/-- Output file name built at src/index.js line 386:
file.replace('.url', '') + '_' + Date.now() + extname(downloadedFile).
epochMs models Date.now() and origExt models extname(downloadedFile). -/
def newFileName (file : String) (epochMs : Nat) (origExt : String) : String :=
  jsReplaceFirst file ".url" "" ++ "_" ++ toString epochMs ++ origExt

/-- Superset check from waitForCookies (src/index.js lines 111-113):
cookieNames.every(name => cookies.some(cookie => cookie.name === name)).
An observation is the list of cookie names visible on the page. -/
def hasAllCookies (required observed : List String) : Bool :=
  required.all fun name => observed.any fun c => c == name

/-- waitForCookies (src/index.js lines 98-133).  The loop head requires
both attempts < maxAttempts and elapsed < timeout before another poll may
happen, and each failed poll (or an error while reading cookies, modelled
as a none observation) consumes one attempt.  The poll list holds the
successive observations that fit inside the overall timeout, so an empty
list means the wall-clock deadline has passed; the first argument is the
number of attempts still allowed. -/
def waitForCookies (required : List String) :
    Nat → List (Option (List String)) → Bool
  | _, [] => false
  | 0, _ => false
  | n + 1, obs? :: rest =>
    match obs? with
    | some obs =>
      if hasAllCookies required obs = true then true
      else waitForCookies required n rest
    | none => waitForCookies required n rest

end Crawler

/-- Environment of one shortcut item inside the crawlMeetingUrls loop
(src/index.js lines 267-412): the value of the URL field of the parsed
shortcut file, whether page.goto succeeds, and whether the whole
menu/format/export/download pipeline for the item succeeds. -/
structure ItemEnv where
  urlField : Option String
  navOk : Bool
  exportOk : Bool
deriving DecidableEq

/-- Per-item outcome of the crawlMeetingUrls loop: invalid shortcut
(readUrlFile returned null, item skipped with a logged reason), skipped
because navigation threw before the cookie gate ran, run aborted at the
cookie gate, export completed, or export attempted but failed. -/
inductive ItemResult where
  | invalid
  | skippedNav
  | aborted
  | exported
  | skippedExport
deriving DecidableEq

namespace Crawler

/-- The per-item loop of crawlMeetingUrls (src/index.js lines 267-412).
gateOk models the result waitForCookies would report when consulted;
logged models the isLoggedIn flag (initially false).  An invalid URL
skips the item; a navigation failure is caught per item and skipped; the
cookie gate runs at the first item that reaches it while not logged in,
and on gate failure the function returns, leaving every remaining item
unprocessed. -/
def crawlItems : Bool → Bool → List ItemEnv → List ItemResult
  | _, _, [] => []
  | gateOk, logged, it :: rest =>
    match readUrlFile it.urlField with
    | none => ItemResult.invalid :: crawlItems gateOk logged rest
    | some _ =>
      if it.navOk = false then
        ItemResult.skippedNav :: crawlItems gateOk logged rest
      else if logged then
        (if it.exportOk then ItemResult.exported else ItemResult.skippedExport) ::
          crawlItems gateOk logged rest
      else if gateOk then
        (if it.exportOk then ItemResult.exported else ItemResult.skippedExport) ::
          crawlItems gateOk true rest
      else [ItemResult.aborted]

end Crawler

/-- Run-level events of crawlMeetingUrls: the Chrome process being
launched (startChrome resolving with the process handle, src/index.js
line 229), the finally block killing it (line 421), and the per-item
outcomes in between. -/
inductive RunEvent where
  | chromeLaunched
  | chromeKilled
  | item (r : ItemResult)
deriving DecidableEq

/-- Environment of one whole crawlMeetingUrls run: whether the download
directory could be prepared, whether findFreePort found a port, whether
startChrome resolved (assigning chromeProcess), whether the
/json/version handshake and the puppeteer connect succeeded, the cookie
gate outcome, and the shortcut items. -/
structure RunEnv where
  mkdirOk : Bool
  portFound : Bool
  chromeOk : Bool
  handshakeOk : Bool
  connectOk : Bool
  gateOk : Bool
  items : List ItemEnv

namespace Crawler

/-- Body of the run between a successful startChrome and the finally
block: handshake or connect failure throws to the outer catch (no item
events), otherwise the item loop runs. -/
def runBody (env : RunEnv) : List RunEvent :=
  if env.handshakeOk = false then []
  else if env.connectOk = false then []
  else (crawlItems env.gateOk false env.items).map RunEvent.item

/-- Event trace of crawlMeetingUrls (src/index.js lines 218-425).  Any
failure before startChrome resolves leaves chromeProcess unassigned, so
the finally block does not kill anything; once chromeProcess is
assigned, every path through the try body - normal completion, early
return, per-item failure, or an exception caught by the outer catch -
runs the finally block, which kills the process exactly once. -/
def crawlRunTrace (env : RunEnv) : List RunEvent :=
  if env.mkdirOk = false then []
  else if env.portFound = false then []
  else if env.chromeOk = false then []
  else RunEvent.chromeLaunched :: (runBody env ++ [RunEvent.chromeKilled])

end Crawler

/-- Observation of one file in a directory listing: its name and the
modification time and size its stat reports at observation time. -/
structure FileObs where
  name : String
  mtime : Nat
  size : Nat
deriving DecidableEq

/-- Download-directory environment: the listing (with per-file stat
data) an observer sees at each point in time (ms). -/
def DirEnv : Type := Nat → List FileObs

/-- Path join as used by join(downloadPath, file) on a POSIX-style
download path without a trailing separator. -/
def joinPath (dir name : String) : String :=
  dir ++ "/" ++ name

/-- Looking up a file by name in the directory at time t models
fs.stat(filePath); none models a stat failure (file vanished). -/
def statAt (env : DirEnv) (t : Nat) (name : String) : Option FileObs :=
  (env t).find? fun f => f.name == name

/-- Result of a waitForDownload call: the returned file path, the
download-timeout throw, or any other thrown error (e.g. a stat failure). -/
inductive DlResult where
  | completed (path : String)
  | timedOut
  | errored
deriving DecidableEq

namespace Crawler

/-- Extension filter from src/index.js line 142:
downloadType.toUpperCase() === 'PDF' ? '.pdf' : '.docx'. -/
def targetExt (dtype : String) : String :=
  if jsToUpper dtype = "PDF" then ".pdf" else ".docx"

/-- Name filter from src/index.js lines 146-150: keep files that are not
partial downloads, not hidden, and carry the expected extension. -/
def keepFile (dtype : String) (f : FileObs) : Bool :=
  !jsEndsWith f.name ".crdownload" && !jsStartsWith f.name "." &&
    jsEndsWith f.name (targetExt dtype)

/-- Discovery filter of waitForDownload (src/index.js lines 144-158):
the name filters, then the restriction to files whose modification time
is at or after the task start time. -/
def discoveryCandidates (dtype : String) (startTime : Nat)
    (listing : List FileObs) : List FileObs :=
  (listing.filter (keepFile dtype)).filter fun f => decide (startTime ≤ f.mtime)

/-- Stability phase of waitForDownload (src/index.js lines 169-183),
with the state threaded through the loop: previousSize starts at -1,
stableCount at 0.  A sample equal to the previous size and strictly
positive increments the counter and completes once it reaches
maxStableCount; any other sample resets the counter to zero.  The sample
list abstracts the successive sizes fs.stat reports before the overall
deadline cuts the loop off; completion is modelled in the source by the
hardcoded maxStableCount = 5, kept here as the parameter threshold. -/
def stabilitySteps (threshold : Nat) : Int → Nat → List Nat → Bool
  | _, _, [] => false
  | prev, count, s :: rest =>
    if (s : Int) = prev ∧ 0 < s then
      if threshold ≤ count + 1 then true
      else stabilitySteps threshold (s : Int) (count + 1) rest
    else stabilitySteps threshold (s : Int) 0 rest

/-- Entry point of the stability phase on a sample sequence. -/
def stabilityCompletes (threshold : Nat) (sizes : List Nat) : Bool :=
  stabilitySteps threshold (-1) 0 sizes

/-- Inner size-stability loop of waitForDownload (src/index.js lines
164-183) against the directory environment: guard Date.now() < endTime,
stat of the fixed file path, maxStableCount = 5, checkInterval = 3000.
The final fuel argument only bounds the recursion; it is always larger
than the number of iterations the deadline permits. -/
def stabilityLoopA (env : DirEnv) (fname fpath : String) (endTime : Nat) :
    Int → Nat → Nat → Nat → DlResult
  | _, _, _, 0 => DlResult.timedOut
  | prev, count, now, fuel + 1 =>
    if endTime ≤ now then DlResult.timedOut
    else
      match statAt env now fname with
      | none => DlResult.errored
      | some fo =>
        if (fo.size : Int) = prev ∧ 0 < fo.size then
          if 5 ≤ count + 1 then DlResult.completed fpath
          else stabilityLoopA env fname fpath endTime (fo.size : Int) (count + 1) (now + 3000) fuel
        else stabilityLoopA env fname fpath endTime (fo.size : Int) 0 (now + 3000) fuel

/-- Outer discovery loop of waitForDownload (src/index.js lines
140-186): while Date.now() < endTime, list the directory, filter, and
either poll again after 1000 ms or enter the stability loop on the first
qualifying file.  When the stability loop runs out of time the code
falls through to the outer guard and throws the download timeout, which
the stability loop already reports. -/
def discoveryLoopA (env : DirEnv) (dtype dp : String) (startTime endTime : Nat) :
    Nat → Nat → DlResult
  | _, 0 => DlResult.timedOut
  | now, fuel + 1 =>
    if endTime ≤ now then DlResult.timedOut
    else
      match discoveryCandidates dtype startTime (env now) with
      | [] => discoveryLoopA env dtype dp startTime endTime (now + 1000) fuel
      | f :: _ => stabilityLoopA env f.name (joinPath dp f.name) endTime (-1) 0 now fuel

/-- waitForDownload of src/index.js (lines 135-188): endTime = startTime
+ timeout, polling starts at the task start time. -/
def waitForDownload (env : DirEnv) (dtype dp : String)
    (startTime timeout : Nat) : DlResult :=
  discoveryLoopA env dtype dp startTime (startTime + timeout) startTime (timeout + 1)

end Crawler

namespace Part000

/-- File search of the legacy waitForDownload (src/unnamed/part_000 line
115): the first listed file that does not end in .crdownload, with no
extension, hidden-file, or modification-time filter. -/
def findDownload (files : List FileObs) : Option FileObs :=
  files.find? fun f => !Crawler.jsEndsWith f.name ".crdownload"

/-- Appearance phase of the legacy waitForDownload (src/unnamed/part_000
lines 113-120): poll the listing every 1000 ms while Date.now() -
startTime < timeout, stopping at the first qualifying file. -/
def appearLoop (env : DirEnv) (deadline : Nat) :
    Nat → Nat → Option (FileObs × Nat)
  | _, 0 => none
  | now, fuel + 1 =>
    if deadline ≤ now then none
    else
      match findDownload (env now) with
      | some f => some (f, now)
      | none => appearLoop env deadline (now + 1000) fuel

/-- Stability loop of the legacy waitForDownload (src/unnamed/part_000
lines 129-153).  The loop guard Date.now() - startTime < timeout is
checked first; when it fails the size-never-stable timeout is thrown
(line 155).  Otherwise the first statement of the loop body evaluates
statSync(filePath) (line 136), but line 2 of the module imports only
promises and existsSync from fs, so statSync is an unbound identifier
and the first iteration throws a ReferenceError: this loop can never
reach its completion return. -/
def stabilityLoopB (deadline now : Nat) : DlResult :=
  if deadline ≤ now then DlResult.timedOut
  else DlResult.errored

/-- waitForDownload of src/unnamed/part_000 (lines 108-156): startTime
is Date.now() at the moment of the call.  If no file appears before the
deadline the download timeout of line 123 is thrown; once a file is
found, the stability phase runs (and throws, see stabilityLoopB). -/
def waitForDownload (env : DirEnv) (dp : String)
    (startTime timeout : Nat) : DlResult :=
  match appearLoop env (startTime + timeout) startTime (timeout + 1) with
  | none => DlResult.timedOut
  | some (_, t) => stabilityLoopB (startTime + timeout) t

end Part000

/-- Directory that always holds a single stale pre-existing export: a
.docx file whose modification time (0) lies before any task start time
used below, with a constant positive size. -/
def envStale : DirEnv := fun _ => [⟨"old.docx", 0, 100⟩]

/-- Directory that always holds a single fresh export: a .docx file
whose modification time (200) lies after task start time 100, with a
constant positive size. -/
def envFresh : DirEnv := fun _ => [⟨"a.docx", 200, 7⟩]

/-- A single fresh file observation used in witnesses. -/
def freshObs : FileObs := ⟨"a.docx", 200, 7⟩

/-- Shortcut item whose URL field holds a non-http value. -/
def itemBad : ItemEnv := ⟨some "ftp://host/x", true, true⟩

/-- Shortcut item with a valid URL and a fully succeeding pipeline. -/
def itemGood : ItemEnv := ⟨some "http://portal/a", true, true⟩

/-- Run environment in which every phase succeeds and there are no
items. -/
def runEnvAll : RunEnv := ⟨true, true, true, true, true, true, []⟩

/-- Cookie observations used in the C3 witness: the first poll sees no
cookies, the second sees both required ones. -/
def pollsW : List (Option (List String)) :=
  [some [], some ["session", "session_list"]]

/-- Character list of the pattern '.url' removed by the rename step. -/
def urlPat : List Char := ['.', 'u', 'r', 'l']

/-- Probe environment in which every bind attempt succeeds. -/
def probeAllFree : Nat → BindOutcome := fun _ => BindOutcome.listening

/-- Probe environment in which every bind attempt fails with an error
other than EADDRINUSE, e.g. EACCES on a privileged port. -/
def probeDenied : Nat → BindOutcome := fun _ => BindOutcome.errOther

/-! ### Helper lemmas -/

theorem findFreePortLoop_some_iff (probe : Nat → BindOutcome) :
    ∀ (n start p : Nat),
      Crawler.findFreePortLoop probe start n = some p ↔
        start ≤ p ∧ p < start + n ∧ Crawler.checkPort (probe p) = true ∧
          ∀ q, start ≤ q → q < p → Crawler.checkPort (probe q) = false := by
  intro n
  induction n with
  | zero =>
    intro start p
    simp only [Crawler.findFreePortLoop]
    constructor
    · intro h; exact absurd h (by simp)
    · rintro ⟨h1, h2, _⟩; omega
  | succ n ih =>
    intro start p
    simp only [Crawler.findFreePortLoop]
    by_cases hav : Crawler.checkPort (probe start) = true
    · simp only [hav, if_true]
      constructor
      · rintro h
        have hp : p = start := by
          have := Option.some.inj h; omega
        subst hp
        exact ⟨le_refl _, by omega, hav, fun q h1 h2 => absurd (lt_of_le_of_lt h1 h2) (lt_irrefl _)⟩
      · rintro ⟨h1, _, hpav, hmin⟩
        have hps : p = start := by
          by_contra hne
          have : start < p := lt_of_le_of_ne h1 (Ne.symm hne)
          have := hmin start (le_refl _) this
          rw [hav] at this; exact Bool.true_eq_false.mp this
        subst hps; rfl
    · have hav' : Crawler.checkPort (probe start) = false := by
        revert hav; cases Crawler.checkPort (probe start) <;> simp
      simp only [hav', Bool.false_eq_true, if_false]
      rw [ih (start + 1) p]
      constructor
      · rintro ⟨h1, h2, h3, h4⟩
        refine ⟨by omega, by omega, h3, ?_⟩
        intro q hq1 hq2
        rcases Nat.eq_or_lt_of_le hq1 with hq | hq
        · rw [← hq]; exact hav'
        · exact h4 q (by omega) hq2
      · rintro ⟨h1, h2, h3, h4⟩
        have hps : start < p := by
          rcases Nat.eq_or_lt_of_le h1 with hq | hq
          · rw [← hq] at h3; rw [hav'] at h3; exact absurd h3 (by simp)
          · exact hq
        exact ⟨by omega, by omega, h3, fun q hq1 hq2 => h4 q (by omega) hq2⟩

theorem findFreePortLoop_none_iff (probe : Nat → BindOutcome) :
    ∀ (n start : Nat),
      Crawler.findFreePortLoop probe start n = none ↔
        ∀ i, i < n → Crawler.checkPort (probe (start + i)) = false := by
  intro n
  induction n with
  | zero =>
    intro start
    simp [Crawler.findFreePortLoop]
  | succ n ih =>
    intro start
    simp only [Crawler.findFreePortLoop]
    by_cases hav : Crawler.checkPort (probe start) = true
    · simp only [hav, if_true]
      constructor
      · intro h; exact absurd h (by simp)
      · intro h
        have h0 := h 0 (by omega)
        rw [Nat.add_zero] at h0
        rw [hav] at h0; exact absurd h0 (by simp)
    · have hav' : Crawler.checkPort (probe start) = false := by
        revert hav; cases Crawler.checkPort (probe start) <;> simp
      simp only [hav', Bool.false_eq_true, if_false]
      rw [ih (start + 1)]
      constructor
      · intro h i hi
        cases i with
        | zero => rw [Nat.add_zero]; exact hav'
        | succ j =>
          have := h j (by omega)
          rw [show start + 1 + j = start + (j + 1) by omega] at this
          exact this
      · intro h i hi
        have := h (i + 1) (by omega)
        rw [show start + (i + 1) = start + 1 + i by omega] at this
        exact this

/-! ### Claim theorems for the port allocator -/

/-- Claim C5: for every startPort, findFreePort probes ports startPort,
startPort+1, ... in increasing order, at most 100 of them, returns the
first one whose probe reports it available (hence the smallest such port),
fails with the no-free-port error (none) exactly when all 100 probes
report unavailable, and no probed port remains bound after probing. -/
theorem findFreePort_spec (probe : Nat → BindOutcome) (startPort : Nat) :
    (∀ p, Crawler.findFreePort probe startPort = some p ↔
        startPort ≤ p ∧ p < startPort + 100 ∧
          Crawler.checkPort (probe p) = true ∧
          ∀ q, startPort ≤ q → q < p → Crawler.checkPort (probe q) = false) ∧
    (Crawler.findFreePort probe startPort = none ↔
        ∀ i, i < 100 → Crawler.checkPort (probe (startPort + i)) = false) ∧
    (∀ o, Crawler.portStillBound o = false) := by
  refine ⟨fun p => findFreePortLoop_some_iff probe 100 startPort p,
          findFreePortLoop_none_iff probe 100 startPort, ?_⟩
  intro o; cases o <;> rfl

/-- Witness for C5: with every port free, findFreePort returns the start
port itself. -/
theorem findFreePort_spec_witness :
    Crawler.findFreePort probeAllFree 9222 = some 9222 :=
  ((findFreePort_spec probeAllFree 9222).1 9222).mpr
    ⟨le_refl _, by omega, rfl, fun q h1 h2 => absurd (lt_of_le_of_lt h1 h2) (lt_irrefl _)⟩

/-- Claim C10: checkPort reports a port available for every bind outcome
other than EADDRINUSE, so when the probe of the start port fails with some
other error (e.g. permission denied), findFreePort returns that port even
though a listening socket was never successfully bound on it. -/
theorem checkPort_error_available :
    (∀ o, Crawler.checkPort o = true ↔ o ≠ BindOutcome.errAddrInUse) ∧
    (∀ (probe : Nat → BindOutcome) (startPort : Nat),
        probe startPort = BindOutcome.errOther →
          Crawler.findFreePort probe startPort = some startPort ∧
          probe startPort ≠ BindOutcome.listening) := by
  constructor
  · intro o; cases o <;> simp [Crawler.checkPort]
  · intro probe startPort h
    refine ⟨((findFreePortLoop_some_iff probe 100 startPort startPort).mpr
      ⟨le_refl _, by omega, by rw [h]; rfl,
       fun q h1 h2 => absurd (lt_of_le_of_lt h1 h2) (lt_irrefl _)⟩), by rw [h]; simp⟩

/-- Witness for C10: a probe that always fails with a non-EADDRINUSE
error makes findFreePort return the start port. -/
theorem checkPort_error_available_witness :
    Crawler.findFreePort probeDenied 9222 = some 9222 ∧
      probeDenied 9222 ≠ BindOutcome.listening :=
  checkPort_error_available.2 probeDenied 9222 rfl

/-! ### Lemmas about the rename step -/

theorem strStarts_no_straddle (c : Char) (l : List Char)
    (h : Crawler.strStarts urlPat ((c :: l) ++ urlPat) = true) :
    Crawler.strStarts urlPat (c :: l) = true := by
  rcases l with _ | ⟨a, _ | ⟨b, _ | ⟨d, rest⟩⟩⟩
  · exfalso
    simp only [urlPat, List.cons_append, List.nil_append, Crawler.strStarts,
      Bool.and_eq_true] at h
    exact absurd h.2.1 (by decide)
  · exfalso
    simp only [urlPat, List.cons_append, List.nil_append, Crawler.strStarts,
      Bool.and_eq_true] at h
    exact absurd h.2.2.1 (by decide)
  · exfalso
    simp only [urlPat, List.cons_append, List.nil_append, Crawler.strStarts,
      Bool.and_eq_true] at h
    exact absurd h.2.2.2.1 (by decide)
  · simp only [urlPat, List.cons_append, Crawler.strStarts, Bool.and_eq_true] at h ⊢
    exact ⟨h.1, h.2.1, h.2.2.1, h.2.2.2.1, trivial⟩

theorem jsReplaceFirstL_strip :
    ∀ l : List Char, Crawler.hasOccL urlPat l = false →
      Crawler.jsReplaceFirstL urlPat [] (l ++ urlPat) = l := by
  intro l
  induction l with
  | nil => intro _; decide
  | cons c cs ih =>
    intro h
    have h' : Crawler.strStarts urlPat (c :: cs) = false ∧
        Crawler.hasOccL urlPat cs = false := by
      simpa [Crawler.hasOccL] using h
    have hns : Crawler.strStarts urlPat (c :: (cs ++ urlPat)) = false := by
      by_contra hx
      have hx' : Crawler.strStarts urlPat ((c :: cs) ++ urlPat) = true := by
        rw [List.cons_append]
        revert hx
        cases Crawler.strStarts urlPat (c :: (cs ++ urlPat)) <;> simp
      have := strStarts_no_straddle c cs hx'
      rw [h'.1] at this
      exact absurd this (by simp)
    show Crawler.jsReplaceFirstL urlPat [] (c :: (cs ++ urlPat)) = c :: cs
    simp only [Crawler.jsReplaceFirstL, hns, Bool.false_eq_true, if_false]
    exact congrArg (c :: ·) (ih h'.2)

theorem jsReplaceFirst_strip (b : String) (hb : Crawler.hasOcc ".url" b = false) :
    Crawler.jsReplaceFirst (b ++ ".url") ".url" "" = b := by
  have hpat : (".url" : String).data = urlPat := rfl
  have hb' : Crawler.hasOccL urlPat b.data = false := by
    rw [← hpat]; exact hb
  have h2 := jsReplaceFirstL_strip b.data hb'
  show String.mk (Crawler.jsReplaceFirstL (".url" : String).data
    ("" : String).data ((b ++ ".url").data)) = b
  rw [String.data_append, hpat, show ("" : String).data = [] from rfl, h2]

/-! ### Claim theorems for the rename step and the URL validation -/

/-- Counterexample for C7 as stated: for the shortcut file name
x.urly.url the code removes the first occurrence of '.url' (producing
xy.url), not the final .url extension (which would produce x.urly), so
the output name is not the basename-without-extension followed by the
timestamp and extension. -/
theorem newFileName_counterexample :
    Crawler.newFileName "x.urly.url" 5 ".docx" = "xy.url_5.docx" ∧
      Crawler.newFileName "x.urly.url" 5 ".docx" ≠
        "x.urly" ++ "_" ++ toString 5 ++ ".docx" := by
  constructor <;> decide

/-- Claim C7 (amended): on download success the completed file is
renamed to the shortcut name with the first occurrence of the substring
'.url' removed, an underscore, the epoch milliseconds, and the
downloaded file's original extension; in particular, whenever the
shortcut basename contains no other occurrence of '.url', this is the
basename without its .url extension, as the original claim states. -/
theorem newFileName_amended (b : String) (ts : Nat) (ext : String)
    (hb : Crawler.hasOcc ".url" b = false) :
    Crawler.newFileName (b ++ ".url") ts ext = b ++ "_" ++ toString ts ++ ext := by
  show Crawler.jsReplaceFirst (b ++ ".url") ".url" "" ++ "_" ++ toString ts ++ ext = _
  rw [jsReplaceFirst_strip b hb]

/-- Witness for C7 (amended): a plain shortcut name. -/
theorem newFileName_amended_witness :
    Crawler.newFileName ("meeting1" ++ ".url") 42 ".docx" =
      "meeting1" ++ "_" ++ toString 42 ++ ".docx" :=
  newFileName_amended "meeting1" 42 ".docx" (by decide)

/-- Counterexample for C8 as stated: the URL field value httpx://evil is
not an HTTP(S) URL (it starts with neither http:// nor https://), yet
readUrlFile does not return null for it, because the source only tests
the prefix 'http'. -/
theorem readUrlFile_counterexample :
    Crawler.readUrlFile (some "httpx://evil") = some "httpx://evil" ∧
      Crawler.jsStartsWith "httpx://evil" "http://" = false ∧
      Crawler.jsStartsWith "httpx://evil" "https://" = false := by
  refine ⟨?_, ?_, ?_⟩ <;> decide

/-- Claim C8 (amended): readUrlFile returns null exactly when the URL
field is absent, empty, or does not start with the literal prefix
'http' (a prefix test, so non-HTTP(S) schemes beginning with 'http' are
accepted); for such an invalid item the orchestrator records the skip
and processes the remaining items with unchanged state. -/
theorem readUrlFile_amended :
    (∀ s : String, Crawler.readUrlFile (some s) = none ↔
        s = "" ∨ Crawler.jsStartsWith s "http" = false) ∧
    Crawler.readUrlFile none = none ∧
    (∀ (it : ItemEnv) (items : List ItemEnv) (gateOk logged : Bool),
        Crawler.readUrlFile it.urlField = none →
          Crawler.crawlItems gateOk logged (it :: items) =
            ItemResult.invalid :: Crawler.crawlItems gateOk logged items) := by
  refine ⟨?_, rfl, ?_⟩
  · intro s
    by_cases h : s = "" ∨ Crawler.jsStartsWith s "http" = false
    · simp [Crawler.readUrlFile, h]
    · simp [Crawler.readUrlFile, h]
  · intro it items gateOk logged h
    simp only [Crawler.crawlItems, h]

/-- Witness for C8 (amended): a shortcut file with an ftp URL is
recorded as invalid and the rest of the loop continues. -/
theorem readUrlFile_amended_witness :
    Crawler.crawlItems true false (itemBad :: []) =
      ItemResult.invalid :: Crawler.crawlItems true false [] :=
  readUrlFile_amended.2.2 itemBad [] true false (by decide)

/-! ### Lemmas about the cookie gate and the run trace -/

theorem waitForCookies_true_iff (required : List String) :
    ∀ (polls : List (Option (List String))) (maxAttempts : Nat),
      Crawler.waitForCookies required maxAttempts polls = true ↔
        ∃ observed, some observed ∈ polls.take maxAttempts ∧
          Crawler.hasAllCookies required observed = true := by
  intro polls
  induction polls with
  | nil =>
    intro maxAttempts
    simp [Crawler.waitForCookies]
  | cons o rest ih =>
    intro maxAttempts
    cases maxAttempts with
    | zero => simp [Crawler.waitForCookies]
    | succ n =>
      cases o with
      | some obs =>
        by_cases h : Crawler.hasAllCookies required obs = true
        · simp only [Crawler.waitForCookies, h, if_true, List.take_succ_cons]
          exact ⟨fun _ => ⟨obs, List.mem_cons_self _ _, h⟩, fun _ => trivial⟩
        · have h' : Crawler.hasAllCookies required obs = false := by
            revert h; cases Crawler.hasAllCookies required obs <;> simp
          simp only [Crawler.waitForCookies, h', Bool.false_eq_true, if_false,
            List.take_succ_cons]
          rw [ih n]
          constructor
          · rintro ⟨obs', hmem, hall⟩
            exact ⟨obs', List.mem_cons_of_mem _ hmem, hall⟩
          · rintro ⟨obs', hmem, hall⟩
            rcases List.mem_cons.mp hmem with heq | hmem'
            · exfalso
              have : obs' = obs := Option.some.inj heq
              rw [this, h'] at hall
              exact absurd hall (by simp)
            · exact ⟨obs', hmem', hall⟩
      | none =>
        simp only [Crawler.waitForCookies, List.take_succ_cons]
        rw [ih n]
        constructor
        · rintro ⟨obs', hmem, hall⟩
          exact ⟨obs', List.mem_cons_of_mem _ hmem, hall⟩
        · rintro ⟨obs', hmem, hall⟩
          rcases List.mem_cons.mp hmem with heq | hmem'
          · exact absurd heq (by simp)
          · exact ⟨obs', hmem', hall⟩

theorem crawlItems_gate_false :
    ∀ (items : List ItemEnv) (r : ItemResult),
      r ∈ Crawler.crawlItems false false items →
        r = ItemResult.invalid ∨ r = ItemResult.skippedNav ∨ r = ItemResult.aborted := by
  intro items
  induction items with
  | nil =>
    intro r hr
    simp [Crawler.crawlItems] at hr
  | cons it rest ih =>
    intro r hr
    cases hurl : Crawler.readUrlFile it.urlField with
    | none =>
      simp only [Crawler.crawlItems, hurl] at hr
      rcases List.mem_cons.mp hr with h | h
      · exact Or.inl h
      · exact ih r h
    | some u =>
      simp only [Crawler.crawlItems, hurl] at hr
      cases hnav : it.navOk with
      | false =>
        simp only [hnav, if_pos rfl] at hr
        rcases List.mem_cons.mp hr with h | h
        · exact Or.inr (Or.inl h)
        · exact ih r h
      | true =>
        simp only [hnav] at hr
        simp only [show (true = false) = False by simp, if_false, if_neg
          (fun hx : False => hx)] at hr
        simp only [Bool.false_eq_true, if_false] at hr
        rcases List.mem_cons.mp hr with h | h
        · exact Or.inr (Or.inr h)
        · simp at h

theorem runBody_no_chrome_events (env : RunEnv) :
    (Crawler.runBody env).count RunEvent.chromeKilled = 0 ∧
    (Crawler.runBody env).count RunEvent.chromeLaunched = 0 ∧
    RunEvent.chromeLaunched ∉ Crawler.runBody env := by
  have hc : ∀ e : RunEvent, (∀ r, e = RunEvent.item r → False) →
      ((Crawler.crawlItems env.gateOk false env.items).map RunEvent.item).count e = 0 := by
    intro e he
    rw [List.count_eq_zero]
    intro hmem
    rcases List.mem_map.mp hmem with ⟨r, _, hr⟩
    exact he r hr.symm
  unfold Crawler.runBody
  split
  · simp
  · split
    · simp
    · refine ⟨hc _ (fun r h => RunEvent.noConfusion h),
        hc _ (fun r h => RunEvent.noConfusion h), ?_⟩
      intro hmem
      rcases List.mem_map.mp hmem with ⟨r, _, hr⟩
      exact RunEvent.noConfusion hr

/-! ### Claim theorems for the cookie gate and the process lifecycle -/

/-- Claim C3: waitForCookies returns true exactly when one of the polls
that fit inside the attempt bound and the overall timeout observes a
cookie set containing every required name, and when the gate reports
false the orchestrator loop lets no item reach the export phase: every
recorded outcome is an invalid-URL skip, a pre-gate navigation skip, or
the abort itself. -/
theorem waitForCookies_gate :
    (∀ (required : List String) (maxAttempts : Nat)
        (polls : List (Option (List String))),
        Crawler.waitForCookies required maxAttempts polls = true ↔
          ∃ observed, some observed ∈ polls.take maxAttempts ∧
            Crawler.hasAllCookies required observed = true) ∧
    (∀ (items : List ItemEnv) (r : ItemResult),
        r ∈ Crawler.crawlItems false false items →
          r ≠ ItemResult.exported ∧ r ≠ ItemResult.skippedExport) := by
  constructor
  · intro required maxAttempts polls
    exact waitForCookies_true_iff required polls maxAttempts
  · intro items r hr
    rcases crawlItems_gate_false items r hr with h | h | h <;> subst h <;>
      exact ⟨by decide, by decide⟩

/-- Witness for C3: the second of two polls sees both required cookies,
and with a failing gate the single valid item yields only the abort. -/
theorem waitForCookies_gate_witness :
    (Crawler.waitForCookies ["session", "session_list"] 5 pollsW = true ↔
      ∃ observed, some observed ∈ pollsW.take 5 ∧
        Crawler.hasAllCookies ["session", "session_list"] observed = true) ∧
    (ItemResult.aborted ≠ ItemResult.exported ∧
      ItemResult.aborted ≠ ItemResult.skippedExport) :=
  ⟨waitForCookies_gate.1 ["session", "session_list"] 5 pollsW,
   waitForCookies_gate.2 (itemGood :: []) ItemResult.aborted (by decide)⟩

/-- Claim C4: in every run trace the Chrome process is killed exactly as
often as it is launched (at most once), and whenever it was launched the
kill is the final event of the run, so the process never outlives the
run on any exit path. -/
theorem chrome_terminated_once (env : RunEnv) :
    (Crawler.crawlRunTrace env).count RunEvent.chromeKilled =
        (Crawler.crawlRunTrace env).count RunEvent.chromeLaunched ∧
    (Crawler.crawlRunTrace env).count RunEvent.chromeLaunched ≤ 1 ∧
    (RunEvent.chromeLaunched ∈ Crawler.crawlRunTrace env →
        (Crawler.crawlRunTrace env).getLast? = some RunEvent.chromeKilled) := by
  obtain ⟨hk, hl, _⟩ := runBody_no_chrome_events env
  unfold Crawler.crawlRunTrace
  split
  · simp
  · split
    · simp
    · split
      · simp
      · have hshape : RunEvent.chromeLaunched ::
            (Crawler.runBody env ++ [RunEvent.chromeKilled]) =
            (RunEvent.chromeLaunched :: Crawler.runBody env) ++
              RunEvent.chromeKilled :: [] := rfl
        refine ⟨?_, ?_, ?_⟩
        · simp [List.count_cons, List.count_append, hk, hl]
        · simp [List.count_cons, List.count_append, hl]
        · intro _
          rw [hshape, List.getLast?_append_cons]
          rfl

/-- Witness for C4: a fully successful run with no items launches and
then kills Chrome, the kill being the last event. -/
theorem chrome_terminated_once_witness :
    (Crawler.crawlRunTrace runEnvAll).getLast? = some RunEvent.chromeKilled :=
  (chrome_terminated_once runEnvAll).2.2 (by decide)

/-! ### Lemmas about the download watcher -/

theorem stabilityLoopA_completed (env : DirEnv) (fname fpath : String) (endTime : Nat) :
    ∀ (fuel : Nat) (prev : Int) (count now : Nat) (p : String),
      Crawler.stabilityLoopA env fname fpath endTime prev count now fuel =
          DlResult.completed p → p = fpath := by
  intro fuel
  induction fuel with
  | zero =>
    intro prev count now p h
    exact absurd h (by simp [Crawler.stabilityLoopA])
  | succ n ih =>
    intro prev count now p h
    simp only [Crawler.stabilityLoopA] at h
    by_cases ht : endTime ≤ now
    · rw [if_pos ht] at h
      exact absurd h (by simp)
    · rw [if_neg ht] at h
      cases hS : statAt env now fname with
      | none =>
        rw [hS] at h
        exact absurd h (by simp)
      | some fo =>
        rw [hS] at h
        dsimp only at h
        by_cases hc : ((fo.size : Int) = prev ∧ 0 < fo.size)
        · rw [if_pos hc] at h
          by_cases h5 : 5 ≤ count + 1
          · rw [if_pos h5] at h
            exact (DlResult.completed.inj h).symm
          · rw [if_neg h5] at h
            exact ih _ _ _ _ h
        · rw [if_neg hc] at h
          exact ih _ _ _ _ h

theorem discoveryLoopA_completed (env : DirEnv) (dtype dp : String)
    (startTime endTime : Nat) :
    ∀ (fuel now : Nat) (p : String),
      Crawler.discoveryLoopA env dtype dp startTime endTime now fuel =
          DlResult.completed p →
        ∃ (t : Nat) (fo : FileObs), fo ∈ env t ∧ Crawler.keepFile dtype fo = true ∧
          startTime ≤ fo.mtime ∧ p = joinPath dp fo.name := by
  intro fuel
  induction fuel with
  | zero =>
    intro now p h
    exact absurd h (by simp [Crawler.discoveryLoopA])
  | succ n ih =>
    intro now p h
    simp only [Crawler.discoveryLoopA] at h
    by_cases ht : endTime ≤ now
    · rw [if_pos ht] at h
      exact absurd h (by simp)
    · rw [if_neg ht] at h
      cases hC : Crawler.discoveryCandidates dtype startTime (env now) with
      | nil =>
        rw [hC] at h
        exact ih _ _ h
      | cons f tail =>
        rw [hC] at h
        have hp := stabilityLoopA_completed env f.name (joinPath dp f.name)
          endTime n (-1) 0 now p h
        have hmem : f ∈ Crawler.discoveryCandidates dtype startTime (env now) := by
          rw [hC]
          exact List.mem_cons_self _ _
        rw [Crawler.discoveryCandidates, List.mem_filter, List.mem_filter] at hmem
        obtain ⟨⟨hl, hkeep⟩, hm⟩ := hmem
        exact ⟨now, f, hl, hkeep, by simpa using hm, hp⟩

/-! ### Claim theorems for the download watcher -/

/-- Claim C1: whenever waitForDownload of src/index.js returns a
completed path, that path names a file that was selected from a
directory snapshot in which it passed the name filters and had a
modification time at or after the task start time; a file observed with
mtime before the start time is never selected, even if it is the only
file matching the extension filter. -/
theorem waitForDownload_never_stale (env : DirEnv) (dtype dp : String)
    (startTime timeout : Nat) (p : String)
    (h : Crawler.waitForDownload env dtype dp startTime timeout =
      DlResult.completed p) :
    ∃ (t : Nat) (fo : FileObs), fo ∈ env t ∧ Crawler.keepFile dtype fo = true ∧
      startTime ≤ fo.mtime ∧ p = joinPath dp fo.name :=
  discoveryLoopA_completed env dtype dp startTime (startTime + timeout)
    (timeout + 1) startTime p h

/-- Witness for C1: a fresh file (mtime 200 at task start 100) is
completed and indeed satisfies the selection invariant. -/
theorem waitForDownload_never_stale_witness :
    ∃ (t : Nat) (fo : FileObs), fo ∈ envFresh t ∧
      Crawler.keepFile "WORD" fo = true ∧ 100 ≤ fo.mtime ∧
      joinPath "dl" "a.docx" = joinPath "dl" fo.name :=
  waitForDownload_never_stale envFresh "WORD" "dl" 100 50000
    (joinPath "dl" "a.docx") (by decide)

/-- Claim C6: a file is a discovery candidate exactly when it is listed
and is not a partial download, not hidden, and carries the extension of
the configured export type (and, per the mtime restriction the claim
leaves to C1, was modified at or after the task start); the extension is
.pdf exactly when the configured type uppercases to PDF and .docx
otherwise. -/
theorem discovery_filter_iff :
    (∀ dtype : String,
        (Crawler.jsToUpper dtype = "PDF" → Crawler.targetExt dtype = ".pdf") ∧
        (Crawler.jsToUpper dtype ≠ "PDF" → Crawler.targetExt dtype = ".docx")) ∧
    (∀ (dtype : String) (startTime : Nat) (listing : List FileObs) (f : FileObs),
        f ∈ Crawler.discoveryCandidates dtype startTime listing ↔
          f ∈ listing ∧
            Crawler.jsEndsWith f.name ".crdownload" = false ∧
            Crawler.jsStartsWith f.name "." = false ∧
            Crawler.jsEndsWith f.name (Crawler.targetExt dtype) = true ∧
            startTime ≤ f.mtime) := by
  constructor
  · intro dtype
    constructor
    · intro h
      simp [Crawler.targetExt, h]
    · intro h
      simp [Crawler.targetExt, h]
  · intro dtype startTime listing f
    simp only [Crawler.discoveryCandidates, Crawler.keepFile, List.mem_filter,
      Bool.and_eq_true, Bool.not_eq_true', decide_eq_true_eq]
    tauto

/-- Witness for C6: a fresh .docx file is a candidate of a singleton
listing for the WORD export type. -/
theorem discovery_filter_iff_witness :
    freshObs ∈ Crawler.discoveryCandidates "WORD" 100 [freshObs] :=
  (discovery_filter_iff.2 "WORD" 100 [freshObs] freshObs).mpr (by decide)

/-- Counterexample for C9 as stated: on a directory that always holds a
single fresh .docx file, the src/index.js waitForDownload returns the
file's path, while the legacy src/unnamed/part_000 waitForDownload finds
the file and then throws the ReferenceError of its unbound statSync
call, which is neither the same selected path nor a download-timeout
failure. -/
theorem waitForDownload_versions_differ :
    Crawler.waitForDownload envFresh "WORD" "dl" 100 50000 =
        DlResult.completed (joinPath "dl" "a.docx") ∧
      Part000.waitForDownload envFresh "dl" 100 50000 = DlResult.errored ∧
      Crawler.waitForDownload envFresh "WORD" "dl" 100 50000 ≠
        Part000.waitForDownload envFresh "dl" 100 50000 := by
  refine ⟨?_, ?_, ?_⟩ <;> decide

theorem stabilityLoopB_ne_completed (deadline now : Nat) (p : String) :
    Part000.stabilityLoopB deadline now ≠ DlResult.completed p := by
  intro h
  unfold Part000.stabilityLoopB at h
  split at h <;> exact DlResult.noConfusion h

/-- Claim C9 (amended): the two waitForDownload versions are not
observationally equivalent.  The legacy src/unnamed/part_000 version
never returns a completed path at all: its module does not import
statSync, so the first iteration of its stability loop throws a
ReferenceError whenever its appearance phase finds a file, and
otherwise it fails with the download timeout.  Hence there are inputs -
e.g. a directory holding one fresh export - on which src/index.js
returns a file path while part_000 throws. -/
theorem waitForDownload_not_equivalent :
    (∀ (env : DirEnv) (dp : String) (startTime timeout : Nat) (p : String),
        Part000.waitForDownload env dp startTime timeout ≠ DlResult.completed p) ∧
    ∃ (env : DirEnv) (dtype dp : String) (startTime timeout : Nat),
      Crawler.waitForDownload env dtype dp startTime timeout ≠
        Part000.waitForDownload env dp startTime timeout := by
  constructor
  · intro env dp startTime timeout p h
    unfold Part000.waitForDownload at h
    cases hA : Part000.appearLoop env (startTime + timeout) startTime (timeout + 1) with
    | none =>
      rw [hA] at h
      exact DlResult.noConfusion h
    | some ft =>
      obtain ⟨f, t⟩ := ft
      rw [hA] at h
      exact stabilityLoopB_ne_completed (startTime + timeout) t p h
  · exact ⟨envFresh, "WORD", "dl", 100, 50000, by decide⟩

/-- Witness for C9 (amended): the legacy version does not complete even
on the fresh-file directory the current version completes on. -/
theorem waitForDownload_not_equivalent_witness :
    Part000.waitForDownload envFresh "dl" 100 50000 ≠
      DlResult.completed (joinPath "dl" "a.docx") :=
  waitForDownload_not_equivalent.1 envFresh "dl" 100 50000 (joinPath "dl" "a.docx")

/-! ### Lemmas about the stability counter -/

theorem stabilitySteps_true_elim (T : Nat) :
    ∀ (sizes : List Nat) (prev : Int) (count : Nat),
      Crawler.stabilitySteps T prev count sizes = true →
        (∃ i v, 0 < v ∧ ∀ j, j ≤ T → sizes.get? (i + j) = some v) ∨
        (∃ v : Nat, prev = (v : Int) ∧ 0 < v ∧
          ∃ m, m ≤ sizes.length ∧ T ≤ count + m ∧
            ∀ j, j < m → sizes.get? j = some v) := by
  intro sizes
  induction sizes with
  | nil =>
    intro prev count h
    exact absurd h (by simp [Crawler.stabilitySteps])
  | cons s rest ih =>
    intro prev count h
    simp only [Crawler.stabilitySteps] at h
    by_cases hc : ((s : Int) = prev ∧ 0 < s)
    · rw [if_pos hc] at h
      by_cases hT : T ≤ count + 1
      · right
        refine ⟨s, hc.1.symm, hc.2, 1, by simp, by omega, ?_⟩
        intro j hj
        have hj0 : j = 0 := by omega
        rw [hj0, List.get?_cons_zero]
      · rw [if_neg hT] at h
        rcases ih (s : Int) (count + 1) h with hwin | hcarry
        · left
          rcases hwin with ⟨i, v, hv, hw⟩
          refine ⟨i + 1, v, hv, fun j hj => ?_⟩
          rw [show i + 1 + j = (i + j) + 1 by omega, List.get?_cons_succ]
          exact hw j hj
        · rcases hcarry with ⟨v, hpv, hv, m, hm, hTm, hrun⟩
          right
          have hsv : s = v := by exact_mod_cast hpv
          refine ⟨v, ?_, hv, m + 1, by simpa using Nat.succ_le_succ hm, by omega, ?_⟩
          · rw [← hc.1, hsv]
          · intro j hj
            cases j with
            | zero => rw [List.get?_cons_zero, hsv]
            | succ k =>
              rw [List.get?_cons_succ]
              exact hrun k (by omega)
    · rw [if_neg hc] at h
      rcases ih (s : Int) 0 h with hwin | hcarry
      · left
        rcases hwin with ⟨i, v, hv, hw⟩
        refine ⟨i + 1, v, hv, fun j hj => ?_⟩
        rw [show i + 1 + j = (i + j) + 1 by omega, List.get?_cons_succ]
        exact hw j hj
      · rcases hcarry with ⟨v, hpv, hv, m, hm, hTm, hrun⟩
        left
        have hsv : s = v := by exact_mod_cast hpv
        refine ⟨0, v, hv, ?_⟩
        intro j hj
        cases j with
        | zero => rw [Nat.add_zero, List.get?_cons_zero, hsv]
        | succ k =>
          rw [show 0 + (k + 1) = k + 1 by omega, List.get?_cons_succ]
          exact hrun k (by omega)

theorem stabilitySteps_of_run (T : Nat) :
    ∀ (k : Nat) (rest : List Nat) (count v : Nat),
      0 < v → count < T → T ≤ count + k →
      (∀ j, j < k → rest.get? j = some v) →
      Crawler.stabilitySteps T (v : Int) count rest = true := by
  intro k
  induction k with
  | zero =>
    intro rest count v hv hcT hTk _
    omega
  | succ k ih =>
    intro rest count v hv hcT hTk hrun
    have h0 : rest.get? 0 = some v := hrun 0 (by omega)
    cases rest with
    | nil => simp at h0
    | cons r rest' =>
      have hr : r = v := by simpa using h0
      subst hr
      simp only [Crawler.stabilitySteps]
      split
      · split
        · rfl
        · rename_i hT1
          refine ih rest' (count + 1) r hv (by omega) (by omega) ?_
          intro j hj
          have := hrun (j + 1) (by omega)
          rw [List.get?_cons_succ] at this
          exact this
      · rename_i hcond
        exact absurd ⟨trivial, hv⟩ hcond

theorem stabilitySteps_of_window (T : Nat) (hT : 1 ≤ T) :
    ∀ (i : Nat) (sizes : List Nat) (prev : Int) (count v : Nat),
      0 < v → (∀ j, j ≤ T → sizes.get? (i + j) = some v) →
      Crawler.stabilitySteps T prev count sizes = true := by
  intro i
  induction i with
  | zero =>
    intro sizes prev count v hv hw
    have h0 : sizes.get? 0 = some v := by
      have := hw 0 (by omega)
      rwa [Nat.add_zero] at this
    cases sizes with
    | nil => simp at h0
    | cons s rest =>
      have hs : s = v := by simpa using h0
      have hrest : ∀ j, j < T → rest.get? j = some v := by
        intro j hj
        have := hw (j + 1) (by omega)
        rw [show 0 + (j + 1) = j + 1 by omega, List.get?_cons_succ] at this
        exact this
      simp only [Crawler.stabilitySteps]
      by_cases hc : ((s : Int) = prev ∧ 0 < s)
      · rw [if_pos hc]
        by_cases hT1 : T ≤ count + 1
        · rw [if_pos hT1]
        · rw [if_neg hT1]
          rw [hs]
          exact stabilitySteps_of_run T T rest (count + 1) v hv (by omega) (by omega) hrest
      · rw [if_neg hc]
        rw [hs]
        exact stabilitySteps_of_run T T rest 0 v hv (by omega) (by omega) hrest
  | succ i ih =>
    intro sizes prev count v hv hw
    have h0 : sizes.get? (i + 1) = some v := by
      have := hw 0 (by omega)
      rwa [Nat.add_zero] at this
    cases sizes with
    | nil => simp at h0
    | cons s rest =>
      have hw' : ∀ j, j ≤ T → rest.get? (i + j) = some v := by
        intro j hj
        have := hw j hj
        rw [show i + 1 + j = (i + j) + 1 by omega, List.get?_cons_succ] at this
        exact this
      simp only [Crawler.stabilitySteps]
      by_cases hc : ((s : Int) = prev ∧ 0 < s)
      · rw [if_pos hc]
        by_cases hT1 : T ≤ count + 1
        · rw [if_pos hT1]
        · rw [if_neg hT1]
          exact ih rest (s : Int) (count + 1) v hv hw'
      · rw [if_neg hc]
        exact ih rest (s : Int) 0 v hv hw'

/-! ### Claim theorem for the stability counter -/

/-- Claim C2: for every sequence of size samples the stability phase of
waitForDownload declares completion exactly when threshold consecutive
samples are each equal to the previous sample and strictly positive -
equivalently, when threshold + 1 consecutive observed values are all
equal to one positive value (the run must include the predecessor
sample, since the initial previous size -1 never matches a sample).
Any differing or zero sample resets the counter, which is why nothing
short of such a window can complete. -/
theorem stability_threshold_iff (T : Nat) (sizes : List Nat) (hT : 1 ≤ T) :
    Crawler.stabilityCompletes T sizes = true ↔
      ∃ i v, 0 < v ∧ ∀ j, j ≤ T → sizes.get? (i + j) = some v := by
  constructor
  · intro h
    rcases stabilitySteps_true_elim T sizes (-1) 0 h with hwin | hcarry
    · exact hwin
    · exfalso
      rcases hcarry with ⟨v, hpv, hv, _⟩
      have hnn : (0 : Int) ≤ (v : Int) := Int.natCast_nonneg v
      rw [← hpv] at hnn
      omega
  · rintro ⟨i, v, hv, hw⟩
    exact stabilitySteps_of_window T hT i sizes (-1) 0 v hv hw

/-- Witness for C2: with threshold 1, the sample sequence 3, 3 completes
and exhibits the two-sample window. -/
theorem stability_threshold_iff_witness :
    Crawler.stabilityCompletes 1 [3, 3] = true ↔
      ∃ i v, 0 < v ∧ ∀ j, j ≤ 1 → [3, 3].get? (i + j) = some v :=
  stability_threshold_iff 1 [3, 3] (by decide)

end MeetingCrawler
